import Mathlib

/-!
Shallow embedding of `src/lib.rs` of `py-mysql-type-plugin`: a boundary
layer that owns parsed SQL schema state, projects the `sql_type` engine's
internal type taxonomy into a small closed set of external types, and
renders type-checking diagnostics as textual reports.

The internal (engine-side) data types `BaseType`, `Type`, `ArgumentKey`,
`FullType`, `Issue`, `Level`, `StatementType` and `AutoIncrementId` come
from the external `sql_type` crate; their shapes are taken from how
`src/lib.rs` consumes them (payloads the code ignores are modelled as
opaque data the functions never inspect).  The `ariadne` report-rendering
library is likewise external; its `Report::write` is modelled from the
spec where noted.
-/

namespace MysqlTypePlugin

/-- Severity of one diagnostic (`sql_type::Level`). -/
inductive Level where
  | Warning
  | Error
deriving DecidableEq, Repr

/-- Base types of the engine (`sql_type::BaseType`), variants enumerated
by the match in `map_type`. -/
inductive BaseType where
  | Any
  | Bool
  | Bytes
  | Date
  | DateTime
  | Float
  | Integer
  | String
  | Time
  | TimeStamp
deriving DecidableEq, Repr

/-- Argument keys of the engine (`sql_type::ArgumentKey<'_>`): positional
index or named identifier. -/
inductive SqlArgumentKey where
  | Index (i : Nat)
  | Identifier (s : String)
deriving DecidableEq, Repr

/-- Internal engine types (`sql_type::Type<'_>`), variants enumerated by
the match in `map_type`.  The two payload fields of `Args` are ignored by
`map_type` (`Args(_, _)`); they are modelled as opaque data the projection
never inspects. -/
inductive SqlType where
  | Args (base : BaseType) (payload : List (Nat × Nat × SqlArgumentKey))
  | Base (v : BaseType)
  | Enum (values : List String)
  | F32
  | F64
  | I16
  | I32
  | I64
  | I8
  | Invalid
  | JSON
  | Set (values : List String)
  | U16
  | U32
  | U64
  | U8
  | Null
deriving DecidableEq, Repr

/-- The external closed type vocabulary (`enum Type` in `src/lib.rs`,
named `ExtType` here because `Type` is reserved in Lean). -/
inductive ExtType where
  | Any
  | Integer
  | Float
  | Bool
  | Bytes
  | String
  | Enum (values : List String)
deriving DecidableEq, Repr

/-- The function `fn map_type(t: sql_type::Type<'_>) -> Type` from
`src/lib.rs`. -/
def map_type (t : SqlType) : ExtType :=
  match t with
  | SqlType.Args _ _ => ExtType.Any
  | SqlType.Base v =>
    match v with
    | BaseType.Any => ExtType.Any
    | BaseType.Bool => ExtType.Bool
    | BaseType.Bytes => ExtType.Bytes
    | BaseType.Date => ExtType.Any
    | BaseType.DateTime => ExtType.Any
    | BaseType.Float => ExtType.Float
    | BaseType.Integer => ExtType.Integer
    | BaseType.String => ExtType.String
    | BaseType.Time => ExtType.Any
    | BaseType.TimeStamp => ExtType.Any
  | SqlType.Enum v => ExtType.Enum v
  | SqlType.F32 => ExtType.Float
  | SqlType.F64 => ExtType.Float
  | SqlType.I16 => ExtType.Integer
  | SqlType.I32 => ExtType.Integer
  | SqlType.I64 => ExtType.Integer
  | SqlType.I8 => ExtType.Integer
  | SqlType.Invalid => ExtType.Any
  | SqlType.JSON => ExtType.Any
  | SqlType.Set _ => ExtType.String
  | SqlType.U16 => ExtType.Integer
  | SqlType.U32 => ExtType.Integer
  | SqlType.U64 => ExtType.Integer
  | SqlType.U8 => ExtType.Integer
  | SqlType.Null => ExtType.Any

/-- One diagnostic (`sql_type::Issue`): severity, message, primary span
(byte offsets), and labelled secondary fragments in order. -/
structure Issue where
  level : Level
  message : String
  span : Nat × Nat
  fragments : List (String × (Nat × Nat))
deriving DecidableEq, Repr

/-- Report kinds of the `ariadne` rendering library. -/
inductive ReportKind where
  | Warning
  | Error
deriving DecidableEq, Repr

/-- One `ariadne` label: a span, an order, a priority, and a message.
`Label::new` defaults both order and priority to 0. -/
structure Label where
  span : Nat × Nat
  order : Int
  priority : Int
  message : String
deriving DecidableEq, Repr

/-- One `ariadne` report, as built by `issue_to_report`: a kind, the
offset the report is anchored at, whether colored output is enabled
(`Config::default().with_color(false)` disables it), and the labels in
the order they were attached. -/
structure Report where
  kind : ReportKind
  offset : Nat
  colorEnabled : Bool
  labels : List Label
deriving DecidableEq, Repr

/-- The function `fn issue_to_report(issue: Issue) -> Report<...>` from
`src/lib.rs`: an error/warning report at the issue's span start, color
disabled, a primary label at the issue's span with order -1 and priority
-1 carrying the issue's message, then one default-order/priority label
per secondary fragment in the given order. -/
def issue_to_report (issue : Issue) : Report :=
  Report.mk
    (match issue.level with
     | Level.Warning => ReportKind.Warning
     | Level.Error => ReportKind.Error)
    issue.span.1
    false
    (Label.mk issue.span (-1) (-1) issue.message ::
      issue.fragments.map (fun frag => Label.mk frag.2 0 0 frag.1))

/-- Decimal digit character. -/
def digitChar (d : Nat) : Char :=
  match d with
  | 0 => '0'
  | 1 => '1'
  | 2 => '2'
  | 3 => '3'
  | 4 => '4'
  | 5 => '5'
  | 6 => '6'
  | 7 => '7'
  | 8 => '8'
  | 9 => '9'
  | _ => '9'

/-- Decimal digits of a natural number, most significant first. -/
def natChars (n : Nat) : List Char :=
  if h : n < 10 then [digitChar n]
  else natChars (n / 10) ++ [digitChar (n % 10)]
decreasing_by exact Nat.div_lt_self (by omega) (by omega)

/-- Decimal rendering of a natural number. -/
def natStr (n : Nat) : String :=
  String.mk (natChars n)

/-- The ANSI escape character that starts every color/control code. -/
def escChar : Char := Char.ofNat 27

/-- Wrapping a piece of output in color codes when color is enabled;
with color disabled the text passes through untouched. -/
def colorize (enabled : Bool) (s : String) : String :=
  if enabled then String.mk [escChar] ++ s ++ String.mk [escChar] else s

/-- Header word of a report kind. -/
def kindStr (k : ReportKind) : String :=
  match k with
  | ReportKind.Warning => "Warning"
  | ReportKind.Error => "Error"

/-- Priority comparison on labels: the rendering order relation. -/
def labelLE (a b : Label) : Prop := a.priority ≤ b.priority

instance : DecidableRel labelLE :=
  fun a b => inferInstanceAs (Decidable (a.priority ≤ b.priority))

/-- Stable sort of labels by priority, lowest first: the order in which
the renderer lays the labels out. -/
def sortLabels (ls : List Label) : List Label :=
  List.insertionSort labelLE ls

/-- Rendering of one label: its span and message on one line. -/
def renderLabel (l : Label) : String :=
  "  [" ++ natStr l.span.1 ++ ".." ++ natStr l.span.2 ++ "] " ++ l.message ++ "\n"

/-- Concatenation of a list of strings in order. -/
def concatStrings (l : List String) : String :=
  l.foldl (fun a b => a ++ b) ""

/-- Modelled from the spec: `ariadne::Report::write` (external library,
not part of this repository) renders one report fragment against a named
source: a header line carrying the kind, the display name of the source
and the anchor offset, then each label in nondecreasing priority order
(stable, so equal priorities keep attachment order); with color disabled
it injects no ANSI escape bytes of its own. -/
def writeReport (name : String) (r : Report) : String :=
  colorize r.colorEnabled (kindStr r.kind) ++ ": " ++ name ++ ":" ++
    natStr r.offset ++ "\n" ++
    concatStrings ((sortLabels r.labels).map renderLabel)

/-- The function `fn issues_to_string(name, source, issues) -> (bool,
String)` from `src/lib.rs`: fold over the issues in order, flagging an
error once any `Error`-severity issue is seen, and appending each issue's
rendered report fragment to the output. -/
def issues_to_string (name source : String) (issues : List Issue) :
    Bool × String :=
  issues.foldl
    (fun acc issue =>
      (acc.1 || (issue.level == Level.Error),
       acc.2 ++ writeReport name (issue_to_report issue)))
    (false, "")

/-- The external argument-key type (`enum ArgumentKey` in `src/lib.rs`). -/
inductive ArgumentKey where
  | Identifier (s : String)
  | Index (i : Nat)
deriving DecidableEq, Repr

/-- A type together with nullability (`sql_type::FullType`). -/
structure FullType where
  t : SqlType
  not_null : Bool
deriving DecidableEq, Repr

/-- The key projection inside `map_arguments`: `Index` keys keep their
integer, `Identifier` keys keep their text. -/
def mapKey (k : SqlArgumentKey) : ArgumentKey :=
  match k with
  | SqlArgumentKey.Index i => ArgumentKey.Index i
  | SqlArgumentKey.Identifier i => ArgumentKey.Identifier i

/-- One insertion into the association-list model of `HashMap`: an
existing key's entry is overwritten, a fresh key's entry is added. -/
def insertPair (m : List (ArgumentKey × ExtType × Bool))
    (kv : ArgumentKey × ExtType × Bool) :
    List (ArgumentKey × ExtType × Bool) :=
  if m.any (fun e => e.1 == kv.1) then
    m.map (fun e => if e.1 == kv.1 then kv else e)
  else m ++ [kv]

/-- Collecting an iterator of key/value pairs into a `HashMap`, modelled
as an association list with overwrite-on-duplicate semantics. -/
def collectHashMap (l : List (ArgumentKey × ExtType × Bool)) :
    List (ArgumentKey × ExtType × Bool) :=
  l.foldl insertPair []

/-- The function `fn map_arguments(...)` from `src/lib.rs`: project each
key with `mapKey` and each value through `map_type` paired with its
`not_null` flag, then collect into a map. -/
def map_arguments (arguments : List (SqlArgumentKey × FullType)) :
    List (ArgumentKey × ExtType × Bool) :=
  collectHashMap
    (arguments.map (fun kv =>
      (mapKey kv.1, map_type kv.2.t, kv.2.not_null)))

/-- One result column of an engine `Select` outcome
(`sql_type::SelectTypeColumn`): an optional name and a full type. -/
structure SelectTypeColumn where
  name : Option String
  type_ : FullType
deriving DecidableEq, Repr

/-- The engine's three-valued autoincrement indicator
(`sql_type::AutoIncrementId`). -/
inductive AutoIncrementId where
  | Yes
  | No
  | Optional
deriving DecidableEq, Repr

/-- The engine's statement-level outcome (`sql_type::StatementType`),
with the fields `src/lib.rs` consumes. -/
inductive StatementType where
  | Select (columns : List SelectTypeColumn)
      (arguments : List (SqlArgumentKey × FullType))
  | Delete (arguments : List (SqlArgumentKey × FullType))
  | Insert (yield_autoincrement : AutoIncrementId)
      (arguments : List (SqlArgumentKey × FullType))
  | Update (arguments : List (SqlArgumentKey × FullType))
  | Replace (arguments : List (SqlArgumentKey × FullType))
  | Invalid
deriving DecidableEq, Repr

/-- The external statement result: the closed sum over the `pyclass`
result structs `Select`, `Delete`, `Insert`, `Update`, `Replace`,
`Invalid` of `src/lib.rs`, with their fields. -/
inductive StatementResult where
  | Select (columns : List (Option String × ExtType × Bool))
      (arguments : List (ArgumentKey × ExtType × Bool))
  | Delete (arguments : List (ArgumentKey × ExtType × Bool))
  | Insert (yield_autoincrement : String)
      (arguments : List (ArgumentKey × ExtType × Bool))
  | Update (arguments : List (ArgumentKey × ExtType × Bool))
  | Replace (arguments : List (ArgumentKey × ExtType × Bool))
  | Invalid
deriving DecidableEq, Repr

/-- SQL dialects of the engine, as used by `src/lib.rs`. -/
inductive SQLDialect where
  | MariaDB
deriving DecidableEq, Repr

/-- Argument placeholder styles of the engine (`sql_type::SQLArguments`). -/
inductive SQLArguments where
  | NoArgs
  | Percent
  | QuestionMark
deriving DecidableEq, Repr

/-- The engine's `TypeOptions` builder state, restricted to the fields
`src/lib.rs` sets. -/
structure TypeOptions where
  dialect : SQLDialect
  arguments : SQLArguments
  warn_duplicate_column_in_select : Bool
  warn_unnamed_column_in_select : Bool
deriving DecidableEq, Repr

/-- `TypeOptions::new()`: default options (no placeholder style, warning
flags off). -/
def TypeOptions.new : TypeOptions :=
  TypeOptions.mk SQLDialect.MariaDB SQLArguments.NoArgs false false

/-- Builder method `TypeOptions::dialect`. -/
def TypeOptions.withDialect (o : TypeOptions) (d : SQLDialect) : TypeOptions :=
  { o with dialect := d }

/-- Builder method `TypeOptions::arguments`. -/
def TypeOptions.withArguments (o : TypeOptions) (a : SQLArguments) : TypeOptions :=
  { o with arguments := a }

/-- Builder method `TypeOptions::warn_duplicate_column_in_select`. -/
def TypeOptions.withWarnDuplicateColumnInSelect (o : TypeOptions) (b : Bool) :
    TypeOptions :=
  { o with warn_duplicate_column_in_select := b }

/-- Builder method `TypeOptions::warn_unnamed_column_in_select`. -/
def TypeOptions.withWarnUnnamedColumnInSelect (o : TypeOptions) (b : Bool) :
    TypeOptions :=
  { o with warn_unnamed_column_in_select := b }

/-- The options `fn type_statement` builds from `dict_result`
(`src/lib.rs` lines 247-255): MariaDB dialect, percent-style arguments,
and, when `dict_result` is set, the two extra select-list warnings. -/
def typeStatementOptions (dict_result : Bool) : TypeOptions :=
  let options :=
    (TypeOptions.new.withDialect SQLDialect.MariaDB).withArguments
      SQLArguments.Percent
  if dict_result then
    (options.withWarnDuplicateColumnInSelect true).withWarnUnnamedColumnInSelect
      true
  else options

/-- The projection of the engine outcome performed by the match in
`fn type_statement` (`src/lib.rs` lines 259-320), with the host-object
wrapping stripped: columns and arguments are projected, and the
autoincrement indicator becomes one of the literal tags. -/
def projectStatement (stmt : StatementType) : StatementResult :=
  match stmt with
  | StatementType.Select columns arguments =>
      StatementResult.Select
        (columns.map (fun v => (v.name, map_type v.type_.t, v.type_.not_null)))
        (map_arguments arguments)
  | StatementType.Delete arguments =>
      StatementResult.Delete (map_arguments arguments)
  | StatementType.Insert yield_autoincrement arguments =>
      StatementResult.Insert
        (match yield_autoincrement with
         | AutoIncrementId.Yes => "yes"
         | AutoIncrementId.No => "no"
         | AutoIncrementId.Optional => "maybe")
        (map_arguments arguments)
  | StatementType.Update arguments =>
      StatementResult.Update (map_arguments arguments)
  | StatementType.Replace arguments =>
      StatementResult.Replace (map_arguments arguments)
  | StatementType.Invalid => StatementResult.Invalid

/-- The function `fn type_statement` from `src/lib.rs`.  The external
engine call `sql_type::type_statement` (together with the parsed schemas
it reads) is abstracted as the `engine` parameter, returning the typed
statement outcome and the issues it pushed; everything else follows the
source: build options from `dict_result`, run the engine, project the
outcome, and render the issues against the statement text under the
empty source name. -/
def type_statement
    (engine : TypeOptions → String → StatementType × List Issue)
    (statement : String) (dict_result : Bool) :
    StatementResult × Bool × String :=
  let options := typeStatementOptions dict_result
  let stmtIssues := engine options statement
  let res := projectStatement stmtIssues.1
  let errMessages := issues_to_string "" statement stmtIssues.2
  (res, errMessages.1, errMessages.2)

/-- A string is free of color/control codes when none of its characters
is the ANSI escape character. -/
def noEsc (s : String) : Prop :=
  ∀ c ∈ s.data, c ≠ escChar

instance (s : String) : Decidable (noEsc s) :=
  inferInstanceAs (Decidable (∀ c ∈ s.data, c ≠ escChar))

end MysqlTypePlugin

namespace MysqlTypePlugin

/-- Folding string concatenation from any seed factors through
`concatStrings`. -/
theorem foldl_string_append (l : List String) :
    ∀ s : String, l.foldl (fun a b => a ++ b) s = s ++ concatStrings l := by
  induction l with
  | nil =>
    intro s
    rw [List.foldl_nil, concatStrings, List.foldl_nil, String.append_empty]
  | cons a t ih =>
    intro s
    show t.foldl _ (s ++ a) = s ++ concatStrings (a :: t)
    have h2 : concatStrings (a :: t) = a ++ concatStrings t := by
      show t.foldl _ ("" ++ a) = _
      rw [ih ("" ++ a), String.empty_append]
    rw [ih (s ++ a), h2, String.append_assoc]

/-- Concatenation of a cons is the head appended to the concatenation of
the tail. -/
theorem concatStrings_cons (a : String) (t : List String) :
    concatStrings (a :: t) = a ++ concatStrings t := by
  show t.foldl _ ("" ++ a) = _
  rw [foldl_string_append t ("" ++ a), String.empty_append]

/-- Closed form of the fold inside `issues_to_string`: the error flag is
the disjunction of the seed with any `Error`-severity issue, and the text
is the seed followed by the concatenation of the rendered fragments in
input order. -/
theorem foldl_issue_aux (name : String) (b : Bool) (s : String)
    (issues : List Issue) :
    issues.foldl
      (fun acc issue =>
        (acc.1 || (issue.level == Level.Error),
         acc.2 ++ writeReport name (issue_to_report issue))) (b, s) =
    (b || issues.any (fun i => i.level == Level.Error),
     s ++ concatStrings
       (issues.map (fun i => writeReport name (issue_to_report i)))) := by
  induction issues generalizing b s with
  | nil => simp [concatStrings, String.append_empty]
  | cons a t ih =>
    rw [List.foldl_cons, ih, List.any_cons, List.map_cons, concatStrings_cons,
      Bool.or_assoc, String.append_assoc]

/-- C1: the type projection is total (it is a Lean function, defined on
every internal variant) and implements exactly the documented mapping:
every exact-width signed/unsigned integer maps to `Integer`; both float
widths map to `Float`; boolean to `Bool`; byte-string to `Bytes`; text
string and every set-of-string type to `String`; an enumeration to `Enum`
carrying the declared value list in declared order (hence the exact same
set of values); and date, time, timestamp, datetime, JSON, null, invalid
and argument/any placeholders all map to `Any`. -/
theorem map_type_policy :
    (map_type SqlType.I8 = ExtType.Integer ∧
     map_type SqlType.I16 = ExtType.Integer ∧
     map_type SqlType.I32 = ExtType.Integer ∧
     map_type SqlType.I64 = ExtType.Integer ∧
     map_type SqlType.U8 = ExtType.Integer ∧
     map_type SqlType.U16 = ExtType.Integer ∧
     map_type SqlType.U32 = ExtType.Integer ∧
     map_type SqlType.U64 = ExtType.Integer ∧
     map_type (SqlType.Base BaseType.Integer) = ExtType.Integer) ∧
    (map_type SqlType.F32 = ExtType.Float ∧
     map_type SqlType.F64 = ExtType.Float ∧
     map_type (SqlType.Base BaseType.Float) = ExtType.Float) ∧
    (map_type (SqlType.Base BaseType.Bool) = ExtType.Bool) ∧
    (map_type (SqlType.Base BaseType.Bytes) = ExtType.Bytes) ∧
    (map_type (SqlType.Base BaseType.String) = ExtType.String ∧
     ∀ vs : List String, map_type (SqlType.Set vs) = ExtType.String) ∧
    (∀ vs : List String, map_type (SqlType.Enum vs) = ExtType.Enum vs) ∧
    (map_type (SqlType.Base BaseType.Date) = ExtType.Any ∧
     map_type (SqlType.Base BaseType.Time) = ExtType.Any ∧
     map_type (SqlType.Base BaseType.TimeStamp) = ExtType.Any ∧
     map_type (SqlType.Base BaseType.DateTime) = ExtType.Any ∧
     map_type SqlType.JSON = ExtType.Any ∧
     map_type SqlType.Null = ExtType.Any ∧
     map_type SqlType.Invalid = ExtType.Any ∧
     (∀ b payload, map_type (SqlType.Args b payload) = ExtType.Any) ∧
     map_type (SqlType.Base BaseType.Any) = ExtType.Any) ∧
    (∀ t : SqlType, ∃ e : ExtType, map_type t = e) := by
  refine ⟨⟨rfl, rfl, rfl, rfl, rfl, rfl, rfl, rfl, rfl⟩, ⟨rfl, rfl, rfl⟩,
    rfl, rfl, ⟨rfl, fun _ => rfl⟩, fun _ => rfl,
    ⟨rfl, rfl, rfl, rfl, rfl, rfl, rfl, fun _ _ => rfl, rfl⟩,
    fun t => ⟨map_type t, rfl⟩⟩

/-- C2: for every name, source text and issue list, the aggregation's
`hadError` component is true iff the list contains at least one
`Error`-severity issue; an empty issue list yields `hadError = false` and
an empty report string. -/
theorem issues_to_string_hadError (name source : String)
    (issues : List Issue) :
    ((issues_to_string name source issues).1 = true ↔
      ∃ i ∈ issues, i.level = Level.Error) ∧
    issues_to_string name source [] = (false, "") := by
  refine ⟨?_, rfl⟩
  simp only [issues_to_string]
  rw [foldl_issue_aux]
  simp [List.any_eq_true]

/-- C4: the diagnostic renderer is deterministic: two renderings of equal
`(name, text, issues)` triples yield identical `hadError` flags and
byte-identical report strings. -/
theorem issues_to_string_deterministic
    (n1 n2 s1 s2 : String) (i1 i2 : List Issue)
    (hn : n1 = n2) (hs : s1 = s2) (hi : i1 = i2) :
    (issues_to_string n1 s1 i1).1 = (issues_to_string n2 s2 i2).1 ∧
    (issues_to_string n1 s1 i1).2 = (issues_to_string n2 s2 i2).2 := by
  subst hn; subst hs; subst hi; exact ⟨rfl, rfl⟩

/-- Witness for C4 at a concrete triple. -/
theorem issues_to_string_deterministic_witness :
    (issues_to_string "schema" "CREATE TABLE t"
      [Issue.mk Level.Error "bad" (0, 3) []]).1 =
    (issues_to_string "schema" "CREATE TABLE t"
      [Issue.mk Level.Error "bad" (0, 3) []]).1 ∧
    (issues_to_string "schema" "CREATE TABLE t"
      [Issue.mk Level.Error "bad" (0, 3) []]).2 =
    (issues_to_string "schema" "CREATE TABLE t"
      [Issue.mk Level.Error "bad" (0, 3) []]).2 :=
  issues_to_string_deterministic _ _ _ _ _ _ rfl rfl rfl

/-- The key projection is injective: distinct engine keys stay distinct. -/
theorem mapKey_injective : Function.Injective mapKey := by
  intro a b h
  cases a <;> cases b <;> simp [mapKey] at h <;> simp [h]

/-- Folding `insertPair` over pairs whose keys are distinct and disjoint
from the accumulator's keys appends them in order. -/
theorem foldl_insertPair_aux (l : List (ArgumentKey × ExtType × Bool)) :
    ∀ acc : List (ArgumentKey × ExtType × Bool),
      (l.map Prod.fst).Nodup →
      (∀ k ∈ acc.map Prod.fst, k ∉ l.map Prod.fst) →
      l.foldl insertPair acc = acc ++ l := by
  induction l with
  | nil => intro acc _ _; simp
  | cons a t ih =>
    intro acc hnd hdisj
    rw [List.foldl_cons]
    have hka : a.1 ∉ acc.map Prod.fst := by
      intro h
      exact hdisj a.1 h (by simp)
    have hins : insertPair acc a = acc ++ [a] := by
      rw [insertPair, if_neg]
      intro hex
      rcases List.any_eq_true.mp hex with ⟨e, he, heq⟩
      exact hka (List.mem_map.mpr ⟨e, he, by simpa using heq⟩)
    rw [hins]
    have hnd2 : (t.map Prod.fst).Nodup := by
      rw [List.map_cons, List.nodup_cons] at hnd
      exact hnd.2
    have hnotin : a.1 ∉ t.map Prod.fst := by
      rw [List.map_cons, List.nodup_cons] at hnd
      exact hnd.1
    have hdisj2 : ∀ k ∈ (acc ++ [a]).map Prod.fst, k ∉ t.map Prod.fst := by
      intro k hk
      rw [List.map_append, List.mem_append] at hk
      rcases hk with hk | hk
      · intro hmem
        exact hdisj k hk (by rw [List.map_cons]; exact List.mem_cons_of_mem _ hmem)
      · have hk2 : k = a.1 := by simpa using hk
        rw [hk2]
        exact hnotin
    rw [ih (acc ++ [a]) hnd2 hdisj2, List.append_assoc, List.singleton_append]

/-- Collecting a list of pairs with pairwise-distinct keys into the map
model keeps the list unchanged: nothing is dropped, merged or reordered. -/
theorem collectHashMap_of_nodup (l : List (ArgumentKey × ExtType × Bool))
    (h : (l.map Prod.fst).Nodup) : collectHashMap l = l := by
  rw [collectHashMap, foldl_insertPair_aux l [] h (by simp)]
  simp

/-- C3: for every argument list with pairwise-distinct keys (the upstream
uniqueness invariant), the projected argument mapping is exactly the
entrywise image: each `Index i` key stays `Index i`, each `Identifier s`
key stays `Identifier s`, no entry is dropped or merged (the entry count
is preserved), and each value is the projected type paired with the
`not_null` flag. -/
theorem map_arguments_key_fidelity
    (arguments : List (SqlArgumentKey × FullType))
    (h : (arguments.map Prod.fst).Nodup) :
    map_arguments arguments =
      arguments.map (fun kv => (mapKey kv.1, map_type kv.2.t, kv.2.not_null)) ∧
    (map_arguments arguments).length = arguments.length ∧
    (∀ i, mapKey (SqlArgumentKey.Index i) = ArgumentKey.Index i) ∧
    (∀ s, mapKey (SqlArgumentKey.Identifier s) = ArgumentKey.Identifier s) := by
  have hmap :
      ((arguments.map (fun kv =>
        (mapKey kv.1, map_type kv.2.t, kv.2.not_null))).map Prod.fst).Nodup := by
    rw [List.map_map]
    have heq :
        (Prod.fst ∘ fun kv : SqlArgumentKey × FullType =>
          (mapKey kv.1, map_type kv.2.t, kv.2.not_null)) =
        mapKey ∘ Prod.fst := rfl
    rw [heq, ← List.map_map]
    exact List.Nodup.map mapKey_injective h
  have hcollect :
      map_arguments arguments =
        arguments.map (fun kv => (mapKey kv.1, map_type kv.2.t, kv.2.not_null)) := by
    rw [map_arguments, collectHashMap_of_nodup _ hmap]
  refine ⟨hcollect, ?_, fun _ => rfl, fun _ => rfl⟩
  rw [hcollect, List.length_map]

/-- Witness for C3 at a concrete two-entry argument list. -/
theorem map_arguments_key_fidelity_witness :
    map_arguments
      [(SqlArgumentKey.Index 2, FullType.mk SqlType.I32 true),
       (SqlArgumentKey.Identifier "user_id",
         FullType.mk (SqlType.Base BaseType.String) false)] =
      ([(SqlArgumentKey.Index 2, FullType.mk SqlType.I32 true),
        (SqlArgumentKey.Identifier "user_id",
          FullType.mk (SqlType.Base BaseType.String) false)]).map
        (fun kv => (mapKey kv.1, map_type kv.2.t, kv.2.not_null)) ∧
    (map_arguments
      [(SqlArgumentKey.Index 2, FullType.mk SqlType.I32 true),
       (SqlArgumentKey.Identifier "user_id",
         FullType.mk (SqlType.Base BaseType.String) false)]).length =
      ([(SqlArgumentKey.Index 2, FullType.mk SqlType.I32 true),
        (SqlArgumentKey.Identifier "user_id",
          FullType.mk (SqlType.Base BaseType.String) false)]).length ∧
    (∀ i, mapKey (SqlArgumentKey.Index i) = ArgumentKey.Index i) ∧
    (∀ s, mapKey (SqlArgumentKey.Identifier s) = ArgumentKey.Identifier s) :=
  map_arguments_key_fidelity
    [(SqlArgumentKey.Index 2, FullType.mk SqlType.I32 true),
     (SqlArgumentKey.Identifier "user_id",
       FullType.mk (SqlType.Base BaseType.String) false)]
    (by decide)

/-- C5: for every engine `Select` outcome, the projected result is a
`Select` whose column list has one descriptor per engine column in the
same order, each descriptor being the optional name, the projected type
and the not-null flag of the corresponding engine column, together with
the projected argument mapping. -/
theorem projectStatement_select
    (columns : List SelectTypeColumn)
    (arguments : List (SqlArgumentKey × FullType)) :
    projectStatement (StatementType.Select columns arguments) =
      StatementResult.Select
        (columns.map (fun v => (v.name, map_type v.type_.t, v.type_.not_null)))
        (map_arguments arguments) ∧
    (columns.map (fun v =>
      (v.name, map_type v.type_.t, v.type_.not_null))).length =
      columns.length ∧
    ∀ (i : Nat) (hi : i < columns.length),
      (columns.map (fun v =>
        (v.name, map_type v.type_.t, v.type_.not_null))).get
          ⟨i, by simpa using hi⟩ =
        ((columns.get ⟨i, hi⟩).name, map_type (columns.get ⟨i, hi⟩).type_.t,
          (columns.get ⟨i, hi⟩).type_.not_null) := by
  refine ⟨rfl, List.length_map _ _, ?_⟩
  intro i hi
  simp

/-- Witness for C5 at a concrete one-column `Select` outcome. -/
theorem projectStatement_select_witness :
    ([SelectTypeColumn.mk (some "id") (FullType.mk SqlType.I32 true)].map
      (fun v => (v.name, map_type v.type_.t, v.type_.not_null))).get
        ⟨0, by decide⟩ =
      (some "id", ExtType.Integer, true) :=
  (projectStatement_select
    [SelectTypeColumn.mk (some "id") (FullType.mk SqlType.I32 true)] []).2.2
    0 (by decide)

/-- C6: for every engine `Insert` outcome, the projected
`yield_autoincrement` string is exactly "yes" for `Yes`, "no" for `No`
and "maybe" for `Optional`, and no other string is ever produced. -/
theorem projectStatement_insert_autoincrement :
    (∀ args, projectStatement (StatementType.Insert AutoIncrementId.Yes args) =
        StatementResult.Insert "yes" (map_arguments args)) ∧
    (∀ args, projectStatement (StatementType.Insert AutoIncrementId.No args) =
        StatementResult.Insert "no" (map_arguments args)) ∧
    (∀ args,
      projectStatement (StatementType.Insert AutoIncrementId.Optional args) =
        StatementResult.Insert "maybe" (map_arguments args)) ∧
    (∀ y args, ∃ s, (s = "yes" ∨ s = "no" ∨ s = "maybe") ∧
        projectStatement (StatementType.Insert y args) =
          StatementResult.Insert s (map_arguments args)) := by
  refine ⟨fun _ => rfl, fun _ => rfl, fun _ => rfl, fun y args => ?_⟩
  cases y with
  | Yes => exact ⟨"yes", Or.inl rfl, rfl⟩
  | No => exact ⟨"no", Or.inr (Or.inl rfl), rfl⟩
  | Optional => exact ⟨"maybe", Or.inr (Or.inr rfl), rfl⟩

/-- C7: the options built for `dict_result = true` differ from those for
`dict_result = false` only in the two select-list warning flags (dialect
and argument style agree; the flags are exactly the duplicate-column and
unnamed-column warnings); and whenever the engine's statement outcome
agrees on both option sets (the engine's documented behavior: the warn
flags only add warnings), the returned statement result is the same in
both runs. -/
theorem type_statement_dict_result_warnings_only
    (engine : TypeOptions → String → StatementType × List Issue)
    (statement : String)
    (h : (engine (typeStatementOptions true) statement).1 =
         (engine (typeStatementOptions false) statement).1) :
    ((typeStatementOptions true).dialect = (typeStatementOptions false).dialect ∧
     (typeStatementOptions true).arguments =
       (typeStatementOptions false).arguments ∧
     (typeStatementOptions true).warn_duplicate_column_in_select = true ∧
     (typeStatementOptions true).warn_unnamed_column_in_select = true ∧
     (typeStatementOptions false).warn_duplicate_column_in_select = false ∧
     (typeStatementOptions false).warn_unnamed_column_in_select = false) ∧
    (type_statement engine statement true).1 =
      (type_statement engine statement false).1 := by
  refine ⟨⟨rfl, rfl, rfl, rfl, rfl, rfl⟩, ?_⟩
  show projectStatement (engine (typeStatementOptions true) statement).1 =
    projectStatement (engine (typeStatementOptions false) statement).1
  rw [h]

/-- Witness for C7 with a concrete engine whose outcome ignores the
options. -/
theorem type_statement_dict_result_warnings_only_witness :
    (((typeStatementOptions true).dialect =
        (typeStatementOptions false).dialect ∧
      (typeStatementOptions true).arguments =
        (typeStatementOptions false).arguments ∧
      (typeStatementOptions true).warn_duplicate_column_in_select = true ∧
      (typeStatementOptions true).warn_unnamed_column_in_select = true ∧
      (typeStatementOptions false).warn_duplicate_column_in_select = false ∧
      (typeStatementOptions false).warn_unnamed_column_in_select = false) ∧
     (type_statement
        (fun _ _ => (StatementType.Invalid, ([] : List Issue))) "" true).1 =
       (type_statement
        (fun _ _ => (StatementType.Invalid, ([] : List Issue))) "" false).1) :=
  type_statement_dict_result_warnings_only
    (fun _ _ => (StatementType.Invalid, ([] : List Issue))) "" rfl

/-- C10: for every engine, statement and `dict_result`, the report of
`type_statement` is rendered with the empty string as the source display
name: it equals the rendering of the engine's issues against the
statement text under name `""`, hence the concatenation of fragments
each written with `""` as the display name — no caller-supplied schema
name ever appears as the source name. -/
theorem type_statement_report_empty_name
    (engine : TypeOptions → String → StatementType × List Issue)
    (statement : String) (dict_result : Bool) :
    (type_statement engine statement dict_result).2.2 =
      (issues_to_string "" statement
        (engine (typeStatementOptions dict_result) statement).2).2 ∧
    (type_statement engine statement dict_result).2.2 =
      concatStrings
        ((engine (typeStatementOptions dict_result) statement).2.map
          (fun i => writeReport "" (issue_to_report i))) := by
  refine ⟨rfl, ?_⟩
  show (issues_to_string "" statement
    (engine (typeStatementOptions dict_result) statement).2).2 = _
  simp only [issues_to_string]
  rw [foldl_issue_aux]
  exact String.empty_append _

/-- Every decimal digit character differs from the escape character. -/
theorem digitChar_ne_esc (d : Nat) : digitChar d ≠ escChar := by
  unfold digitChar
  split <;> decide

/-- No character of a decimal rendering is the escape character. -/
theorem natChars_ne_esc (n : Nat) : ∀ c ∈ natChars n, c ≠ escChar := by
  induction n using Nat.strong_induction_on with
  | _ n ih =>
    rw [natChars]
    split
    · intro c hc
      rw [List.mem_singleton] at hc
      rw [hc]
      exact digitChar_ne_esc _
    · rename_i h10
      intro c hc
      rcases List.mem_append.mp hc with hmem | hmem
      · exact ih (n / 10) (Nat.div_lt_self (by omega) (by omega)) c hmem
      · rw [List.mem_singleton] at hmem
        rw [hmem]
        exact digitChar_ne_esc _

/-- Decimal renderings of naturals are escape-free. -/
theorem noEsc_natStr (n : Nat) : noEsc (natStr n) := by
  intro c hc
  exact natChars_ne_esc n c hc

/-- Appending two escape-free strings is escape-free. -/
theorem noEsc_append (a b : String) (ha : noEsc a) (hb : noEsc b) :
    noEsc (a ++ b) := by
  intro c hc
  rw [String.data_append] at hc
  rcases List.mem_append.mp hc with h | h
  · exact ha c h
  · exact hb c h

/-- Concatenating escape-free strings is escape-free. -/
theorem noEsc_concat (l : List String) (h : ∀ s ∈ l, noEsc s) :
    noEsc (concatStrings l) := by
  induction l with
  | nil => intro c hc; simp [concatStrings] at hc
  | cons a t ih =>
    rw [concatStrings_cons]
    exact noEsc_append _ _ (h a (by simp))
      (ih (fun s hs => h s (List.mem_cons_of_mem _ hs)))

/-- Report-kind header words are escape-free. -/
theorem noEsc_kindStr (k : ReportKind) : noEsc (kindStr k) := by
  cases k <;> decide

/-- Rendering one label injects no escape character beyond its message. -/
theorem noEsc_renderLabel (l : Label) (h : noEsc l.message) :
    noEsc (renderLabel l) := by
  rw [renderLabel]
  exact noEsc_append _ _
    (noEsc_append _ _ (noEsc_append _ _ (noEsc_append _ _ (noEsc_append _ _
      (noEsc_append _ _ (by decide) (noEsc_natStr _)) (by decide))
      (noEsc_natStr _)) (by decide)) h)
    (by decide)

/-- A report written with color disabled over escape-free label messages
and an escape-free source name is escape-free. -/
theorem noEsc_writeReport (name : String) (r : Report)
    (hc : r.colorEnabled = false)
    (hl : ∀ l ∈ r.labels, noEsc l.message)
    (hn : noEsc name) : noEsc (writeReport name r) := by
  rw [writeReport, hc]
  have hcol : colorize false (kindStr r.kind) = kindStr r.kind := by
    simp [colorize]
  rw [hcol]
  have hcat : noEsc (concatStrings ((sortLabels r.labels).map renderLabel)) := by
    apply noEsc_concat
    intro s hs
    rcases List.mem_map.mp hs with ⟨l, hl2, rfl⟩
    exact noEsc_renderLabel l
      (hl l ((List.perm_insertionSort labelLE r.labels).mem_iff.mp hl2))
  exact noEsc_append _ _ (noEsc_append _ _ (noEsc_append _ _ (noEsc_append _ _
    (noEsc_append _ _ (noEsc_append _ _ (noEsc_kindStr _) (by decide)) hn)
    (by decide)) (noEsc_natStr _)) (by decide)) hcat

/-- Secondary-fragment labels all carry priority 0, so their list is
sorted under the priority order. -/
theorem sorted_fragLabels (l : List (String × (Nat × Nat))) :
    List.Sorted labelLE (l.map (fun f => Label.mk f.2 0 0 f.1)) := by
  induction l with
  | nil => simp
  | cons a t ih =>
    rw [List.map_cons, List.sorted_cons]
    refine ⟨?_, ih⟩
    intro b hb
    rcases List.mem_map.mp hb with ⟨x, _, rfl⟩
    show (0 : Int) ≤ 0
    decide

/-- C8: the rendered report is the concatenation, in input order, of one
fragment per issue; within one issue's fragment the renderer lays the
labels out with the primary label (the issue's message at its span,
pinned to priority -1) first and the secondary fragments after it in
their given order; and, the renderer having color disabled, a fragment
contains no escape/color codes beyond those already present in the issue
texts and source name. -/
theorem report_rendering_structure (name source : String)
    (issues : List Issue) :
    ((issues_to_string name source issues).2 =
      concatStrings
        (issues.map (fun i => writeReport name (issue_to_report i)))) ∧
    (∀ i : Issue,
      sortLabels (issue_to_report i).labels =
        Label.mk i.span (-1) (-1) i.message ::
          i.fragments.map (fun f => Label.mk f.2 0 0 f.1)) ∧
    (∀ i : Issue, noEsc name → noEsc i.message →
      (∀ f ∈ i.fragments, noEsc f.1) →
      noEsc (writeReport name (issue_to_report i))) := by
  refine ⟨?_, ?_, ?_⟩
  · simp only [issues_to_string]
    rw [foldl_issue_aux]
    exact String.empty_append _
  · intro i
    have hs : List.Sorted labelLE
        (Label.mk i.span (-1) (-1) i.message ::
          i.fragments.map (fun f => Label.mk f.2 0 0 f.1)) := by
      rw [List.sorted_cons]
      refine ⟨?_, sorted_fragLabels i.fragments⟩
      intro b hb
      rcases List.mem_map.mp hb with ⟨x, _, rfl⟩
      show (-1 : Int) ≤ 0
      decide
    exact List.Sorted.insertionSort_eq hs
  · intro i hn hmsg hfr
    apply noEsc_writeReport name (issue_to_report i) rfl _ hn
    intro l hl
    rcases List.mem_cons.mp hl with rfl | hmem
    · exact hmsg
    · rcases List.mem_map.mp hmem with ⟨f, hf, rfl⟩
      exact hfr f hf

/-- Witness for C8 at a concrete issue with one secondary fragment. -/
theorem report_rendering_structure_witness :
    noEsc (writeReport "stmt"
      (issue_to_report
        (Issue.mk Level.Error "type mismatch" (5, 9)
          [("declared here", (0, 3))]))) :=
  (report_rendering_structure "stmt" "SELECT x" []).2.2
    (Issue.mk Level.Error "type mismatch" (5, 9) [("declared here", (0, 3))])
    (by decide) (by decide) (by decide)

end MysqlTypePlugin
